import Mathlib

/-!
Verification of the WhatsDown end-to-end encryption engine
(`frontend/public/crypto.js`, class `E2EEncryption`) and the simple
shared-secret scheme (`frontend/public/simpleCrypto.js`, class
`SimpleCrypto`), together with the directory server's one-time pre-key
endpoint (`backend/server.js`).

Embedding conventions:
* Byte strings are `List Nat`.  The base64 transport encoding
  (`arrayBufferToBase64` / `base64ToArrayBuffer`) is a bijection and is
  elided: values are modelled as the raw bytes they encode.
* Elliptic-curve key pairs are identified by a `Nat` id.  A public key,
  an imported public key and an exported (base64) public key are all
  represented by the id of the key pair they belong to, since export
  and import are mutually inverse on valid keys.
* The platform crypto primitives (SubtleCrypto) are not part of the
  repository; they are modelled by executable ideal counterparts:
  - ECDH `deriveBits` depends only on the unordered pair of key pairs
    involved (the defining property of Diffie-Hellman agreement);
  - HKDF-SHA-256 is an injective function of (ikm, salt, info);
  - SHA-256 is an arbitrary fixed function returning a 32-byte digest;
  - AES-256-GCM is an ideal AEAD: decryption succeeds exactly on
    ciphertexts honestly produced under the same key and IV, and any
    modification of the ciphertext is detected.
* Randomness (fresh key-pair ids, fresh IVs) is supplied by the caller
  as explicit parameters.
* JavaScript `throw` is modelled with `Except`/`Option`; the error
  taxonomy of the specification names the constructors.
-/

namespace WhatsDown

/-- Byte strings (each element one byte; the models below only rely on
    the list structure). -/
abbrev Bytes := List Nat

/-- Length-prefixed encoding of a byte string, used by the primitive
    models to keep tuples of inputs injective. -/
def lp (l : Bytes) : Bytes := l.length :: l

/-- UTF-8 bytes of a string (code points; sufficient for the ASCII
    labels and identifiers used by the engine). -/
def strBytes (s : String) : Bytes := s.data.map Char.toNat

/-- Model of ECDH `crypto.subtle.deriveBits`: the derived shared secret
    of a private key and a peer public key depends only on the
    unordered pair of key pairs involved.  `basePriv` is the id of the
    key pair whose private key is used, `pubKey` the id of the key pair
    whose public key is used. -/
def dhBits (basePriv pubKey : Nat) : Bytes :=
  [min basePriv pubKey, max basePriv pubKey]

/-- Model of `hkdf(inputKeyMaterial, salt, info, length)`
    (crypto.js lines 175-198): an injective function of its inputs. -/
def hkdf (ikm salt : Bytes) (info : String) (len : Nat) : Bytes :=
  [len] ++ lp (strBytes info) ++ lp salt ++ lp ikm

/-- The 32-byte all-zero salt `new Uint8Array(32)` used by the engine. -/
def zeros32 : Bytes := List.replicate 32 0

/-- Model of the SHA-256 digest: an arbitrary fixed executable function
    producing a 32-byte digest (each byte < 256).  Only the digest
    length and byte range are relied on by the theorems. -/
def sha256 (x : Bytes) : Bytes :=
  (List.range 32).map (fun i => (x.foldl (fun a b => a * 31 + b + 1) (i + 17)) % 256)

/-- Model of ideal AES-256-GCM encryption under key `key` and IV `iv`:
    the ciphertext (tag included) determines and authenticates the key,
    the IV and the plaintext.  The duplicated body plays the role of
    the authentication tag: any modification of the ciphertext breaks
    it. -/
def encGCM (key iv pt : Bytes) : Bytes :=
  (lp key ++ lp iv ++ lp pt) ++ (lp key ++ lp iv ++ lp pt)

/-- Split a ciphertext into its two halves (body and tag copy); fails
    on odd length. -/
def splitHalf (c : Bytes) : Option (Bytes × Bytes) :=
  if c.length % 2 = 0 then some (c.take (c.length / 2), c.drop (c.length / 2))
  else none

/-- Read one length-prefixed field. -/
def readLP : Bytes → Option (Bytes × Bytes)
  | [] => none
  | n :: rest => if n ≤ rest.length then some (rest.take n, rest.drop n) else none

/-- Model of ideal AES-256-GCM decryption: succeeds with the original
    plaintext exactly when the ciphertext was honestly produced under
    the same key and IV; otherwise authentication fails. -/
def decGCM (c iv key : Bytes) : Option Bytes :=
  match splitHalf c with
  | none => none
  | some (h1, h2) =>
    if h1 = h2 then
      match readLP h1 with
      | none => none
      | some (k, r1) =>
        match readLP r1 with
        | none => none
        | some (i, r2) =>
          match readLP r2 with
          | none => none
          | some (p, r3) => if k = key ∧ i = iv ∧ r3 = [] then some p else none
    else none

/-- Error taxonomy of the specification, mapped to the `throw` sites of
    the source: `noSession` for "No session exists with this contact",
    `authenticationError` for "Decryption failed - message may be
    corrupted or tampered with", `keysNotGeneratedError` for "Generate
    keys first". -/
inductive CryptoError where
  | noSession
  | authenticationError
  | keysNotGeneratedError
deriving DecidableEq, Repr

/-- Per-contact session state, mirroring the object stored in
    `this.sessions` (crypto.js lines 346-352 and 400-405).  The
    responder-side object carries no `ephemeralPublicKey` field,
    modelled by `none`. -/
structure Session where
  rootKey : Bytes
  sendingChainKey : Bytes
  receivingChainKey : Bytes
  messageNumber : Nat
  ephemeralPublicKey : Option Nat
deriving DecidableEq, Repr

/-- State of an `E2EEncryption` instance (crypto.js constructor,
    lines 11-16): long-term identity key pair, signed pre-key, pool of
    one-time pre-keys, and the per-contact session map. -/
structure E2EEncryption where
  identityKeyPair : Option Nat
  signedPreKey : Option Nat
  oneTimePreKeys : List Nat
  sessions : List (String × Session)
deriving DecidableEq, Repr, Inhabited

/-- `Map.get` on the session map. -/
def mapGet : List (String × Session) → String → Option Session
  | [], _ => none
  | (k, v) :: rest, key => if k = key then some v else mapGet rest key

/-- `Map.set` on the session map (replaces the entry if the key is
    present, appends it otherwise). -/
def mapSet : List (String × Session) → String → Session → List (String × Session)
  | [], key, v => [(key, v)]
  | (k, w) :: rest, key, v =>
    if k = key then (k, v) :: rest else (k, w) :: mapSet rest key v

/-- `generateSignedPreKey` (crypto.js lines 47-59): generates a fresh
    key pair, **stores it as `this.signedPreKey`**, and returns it.
    The fresh key pair id is supplied by the caller. -/
def generateSignedPreKey (st : E2EEncryption) (freshId : Nat) : E2EEncryption × Nat :=
  ({ st with signedPreKey := some freshId }, freshId)

/-- Result of `performKeyAgreement`. -/
structure KeyAgreementResult where
  rootKey : Bytes
  ephemeralPublicKey : Nat
deriving DecidableEq, Repr

/-- `performKeyAgreement(theirIdentityKey, theirSignedPreKey,
    theirOneTimePreKey = null)` (crypto.js lines 109-170), the
    initiator's X3DH agreement.  Computes DH1 = DH(IK_A, SPK_B), mints
    the ephemeral pair via `generateSignedPreKey()` (which overwrites
    the stored signed pre-key), computes DH2 = DH(EK_A, IK_B),
    DH3 = DH(EK_A, SPK_B), optionally DH4 = DH(EK_A, OPK_B),
    concatenates in that order and derives the root key by HKDF with
    info "RootKey".  `none` models the TypeError raised when no
    identity key pair exists. -/
def performKeyAgreement (st : E2EEncryption) (theirIdentityKey theirSignedPreKey : Nat)
    (theirOneTimePreKey : Option Nat) (ephId : Nat) :
    Option (E2EEncryption × KeyAgreementResult) :=
  match st.identityKeyPair with
  | none => none
  | some myIK =>
    let dh1 := dhBits myIK theirSignedPreKey
    let stEph := generateSignedPreKey st ephId
    let eph := stEph.2
    let dh2 := dhBits eph theirIdentityKey
    let dh3 := dhBits eph theirSignedPreKey
    let combined0 := dh1 ++ dh2 ++ dh3
    let combinedDH :=
      match theirOneTimePreKey with
      | some otpk => combined0 ++ dhBits eph otpk
      | none => combined0
    let rootKey := hkdf combinedDH zeros32 "RootKey" 32
    some (stEph.1, { rootKey := rootKey, ephemeralPublicKey := eph })

/-- `createSession(contactId, theirIdentityKey, theirSignedPreKey,
    theirOneTimePreKey)` (crypto.js lines 339-355): runs the key
    agreement and stores the session with both chain keys seeded to the
    root key and `messageNumber` zero; returns the ephemeral public
    key. -/
def createSession (st : E2EEncryption) (contactId : String)
    (theirIdentityKey theirSignedPreKey : Nat) (theirOneTimePreKey : Option Nat)
    (ephId : Nat) : Option (E2EEncryption × Nat) :=
  (performKeyAgreement st theirIdentityKey theirSignedPreKey theirOneTimePreKey ephId).map
    (fun r =>
      ({ r.1 with
          sessions := mapSet r.1.sessions contactId
            { rootKey := r.2.rootKey
              sendingChainKey := r.2.rootKey
              receivingChainKey := r.2.rootKey
              messageNumber := 0
              ephemeralPublicKey := some r.2.ephemeralPublicKey } },
        r.2.ephemeralPublicKey))

/-- `createReceiveSession(contactId, senderIdentityKey,
    sendingEphemeralKey)` (crypto.js lines 360-406), the responder's
    agreement: DH1 = DH(SPK_B, IK_A), DH2 = DH(IK_B, EK_A),
    DH3 = DH(SPK_B, EK_A) — no fourth term — then the same HKDF, and
    stores the session with both chain keys seeded to the root key and
    `messageNumber` zero. -/
def createReceiveSession (st : E2EEncryption) (contactId : String)
    (senderIdentityKey sendingEphemeralKey : Nat) : Option E2EEncryption :=
  match st.signedPreKey, st.identityKeyPair with
  | some mySPK, some myIK =>
    let dh1 := dhBits mySPK senderIdentityKey
    let dh2 := dhBits myIK sendingEphemeralKey
    let dh3 := dhBits mySPK sendingEphemeralKey
    let rootKey := hkdf (dh1 ++ dh2 ++ dh3) zeros32 "RootKey" 32
    some { st with
      sessions := mapSet st.sessions contactId
        { rootKey := rootKey
          sendingChainKey := rootKey
          receivingChainKey := rootKey
          messageNumber := 0
          ephemeralPublicKey := none } }
  | _, _ => none

/-- Pair returned by `deriveMessageKeys`. -/
structure MessageKeys where
  messageKey : Bytes
  nextChainKey : Bytes
deriving DecidableEq, Repr

/-- `deriveMessageKeys(chainKey)` (crypto.js lines 203-208): two
    independent labelled HKDF derivations from the same chain key. -/
def deriveMessageKeys (chainKey : Bytes) : MessageKeys :=
  { messageKey := hkdf chainKey zeros32 "MessageKey" 32
    nextChainKey := hkdf chainKey zeros32 "ChainKey" 32 }

/-- Wire-visible encrypted payload `{ciphertext, iv}`. -/
structure EncryptedData where
  ciphertext : Bytes
  iv : Bytes
deriving DecidableEq, Repr

/-- `encryptMessage(plaintext, messageKey)` (crypto.js lines 213-241);
    the fresh random 96-bit IV is supplied by the caller. -/
def encryptMessage (plaintext : Bytes) (messageKey : Bytes) (iv : Bytes) : EncryptedData :=
  { ciphertext := encGCM messageKey iv plaintext, iv := iv }

/-- `decryptMessage(encryptedData, messageKey)` (crypto.js
    lines 246-273): attempts AEAD decryption and maps any failure to
    the authentication error, returning no plaintext. -/
def decryptMessage (encryptedData : EncryptedData) (messageKey : Bytes) :
    Except CryptoError Bytes :=
  match decGCM encryptedData.ciphertext encryptedData.iv messageKey with
  | some pt => Except.ok pt
  | none => Except.error CryptoError.authenticationError

/-- Wire message returned by `sendMessage`: encrypted payload plus the
    post-increment message number. -/
structure SentMessage where
  ciphertext : Bytes
  iv : Bytes
  messageNumber : Nat
deriving DecidableEq, Repr

/-- The `{ciphertext, iv}` part of a sent message, as consumed by
    `receiveMessage`. -/
def SentMessage.toEncryptedData (m : SentMessage) : EncryptedData :=
  { ciphertext := m.ciphertext, iv := m.iv }

/-- `sendMessage(contactId, plaintext)` (crypto.js lines 411-429):
    throws `noSession` when no session exists; otherwise derives the
    message key from `sendingChainKey`, replaces the chain key,
    increments `messageNumber` and encrypts.  The fresh IV is supplied
    by the caller. -/
def sendMessage (st : E2EEncryption) (contactId : String) (plaintext : Bytes)
    (iv : Bytes) : E2EEncryption × Except CryptoError SentMessage :=
  match mapGet st.sessions contactId with
  | none => (st, Except.error CryptoError.noSession)
  | some session =>
    let mk := deriveMessageKeys session.sendingChainKey
    let session' := { session with
      sendingChainKey := mk.nextChainKey
      messageNumber := session.messageNumber + 1 }
    let st' := { st with sessions := mapSet st.sessions contactId session' }
    let encrypted := encryptMessage plaintext mk.messageKey iv
    (st', Except.ok
      { ciphertext := encrypted.ciphertext
        iv := encrypted.iv
        messageNumber := session'.messageNumber })

/-- `receiveMessage(contactId, encryptedData)` (crypto.js
    lines 434-446): throws `noSession` when no session exists;
    otherwise derives the message key from `receivingChainKey`,
    replaces the chain key (before decryption — the chain advances even
    when decryption fails) and attempts decryption.  `messageNumber` is
    not touched. -/
def receiveMessage (st : E2EEncryption) (contactId : String) (encryptedData : EncryptedData) :
    E2EEncryption × Except CryptoError Bytes :=
  match mapGet st.sessions contactId with
  | none => (st, Except.error CryptoError.noSession)
  | some session =>
    let mk := deriveMessageKeys session.receivingChainKey
    let st' := { st with
      sessions := mapSet st.sessions contactId
        { session with receivingChainKey := mk.nextChainKey } }
    (st', decryptMessage encryptedData mk.messageKey)

/-- Lower-case hexadecimal digit, as produced by
    `b.toString(16)`. -/
def hexDigit (n : Nat) : Char :=
  if n < 10 then Char.ofNat (48 + n) else Char.ofNat (87 + n)

/-- Two-digit lower-case hexadecimal rendering of one byte, as produced
    by `b.toString(16).padStart(2, '0')` for `b < 256`. -/
def hexByte (b : Nat) : List Char := [hexDigit (b / 16), hexDigit (b % 16)]

/-- `String.prototype.toUpperCase` on the characters produced here
    (ASCII letters only). -/
def upperChar (c : Char) : Char :=
  if 97 ≤ c.toNat ∧ c.toNat ≤ 122 then Char.ofNat (c.toNat - 32) else c

/-- `generateFingerprint(publicKey)` (crypto.js lines 451-456): SHA-256
    digest of the raw key bytes, each byte rendered as two hex digits,
    joined and upper-cased. -/
def generateFingerprint (keyBytes : Bytes) : List Char :=
  (((sha256 keyBytes).map hexByte).flatten).map upperChar

/-- Public key bundle exported to the directory server. -/
structure PublicKeyBundle where
  identityKey : Nat
  signedPreKey : Nat
  oneTimePreKeys : List Nat
deriving DecidableEq, Repr

/-- `exportIdentityBundle()` (crypto.js lines 485-501): throws
    "Generate keys first" when identity or signed pre-key are absent;
    otherwise returns the public identity key, signed pre-key and the
    first up-to-10 one-time pre-keys (`slice(0, 10)` — the pool is not
    modified). -/
def exportIdentityBundle (st : E2EEncryption) : Except CryptoError PublicKeyBundle :=
  match st.identityKeyPair, st.signedPreKey with
  | some ik, some spk =>
    Except.ok
      { identityKey := ik
        signedPreKey := spk
        oneTimePreKeys := st.oneTimePreKeys.take 10 }
  | _, _ => Except.error CryptoError.keysNotGeneratedError

/-- The directory server's one-time pre-key consumption
    (backend/server.js lines 205-212): `shift()` pops the first pooled
    key, `null` when the pool is empty.  Returns the served key and the
    remaining pool. -/
def serveOneTimePreKey (pool : List Nat) : Option Nat × List Nat :=
  match pool with
  | [] => (none, [])
  | k :: rest => (some k, rest)

/-- `SimpleCrypto.deriveSharedKey(username1, username2)`
    (simpleCrypto.js lines 10-26): sorts the two usernames
    lexicographically, joins them with the separator ":secret:" and
    hashes with SHA-256; the digest is the AES-256 key (the
    `importKey` wrapper is bijective on digests and elided).
    JavaScript `[u1, u2].sort()` on two elements is modelled by a
    lexicographic comparison. -/
def sortTwo (a b : String) : List String := if a ≤ b then [a, b] else [b, a]

/-- The derived shared AES-256 key (its raw bytes). -/
def deriveSharedKey (username1 username2 : String) : Bytes :=
  sha256 (strBytes (String.intercalate ":secret:" (sortTwo username1 username2)))

/-! ## Further definitions used by the claims -/

instance {ε α : Type} [DecidableEq ε] [DecidableEq α] :
    DecidableEq (Except ε α) := fun x y =>
  match x, y with
  | Except.ok a, Except.ok b =>
    if h : a = b then isTrue (by rw [h])
    else isFalse (by intro hh; cases hh; exact h rfl)
  | Except.ok _, Except.error _ => isFalse (by intro hh; cases hh)
  | Except.error _, Except.ok _ => isFalse (by intro hh; cases hh)
  | Except.error e, Except.error f =>
    if h : e = f then isTrue (by rw [h])
    else isFalse (by intro hh; cases hh; exact h rfl)

/-- Upper-case hexadecimal digit as a character-code predicate
    (codes 48-57 are `0`-`9`, codes 65-70 are `A`-`F`). -/
def isUpperHexDigit (c : Char) : Prop :=
  (48 ≤ c.toNat ∧ c.toNat ≤ 57) ∨ (65 ≤ c.toNat ∧ c.toNat ≤ 70)

instance (c : Char) : Decidable (isUpperHexDigit c) := by
  unfold isUpperHexDigit
  infer_instance

/-- Send a list of (plaintext, fresh IV) pairs in order through
    `sendMessage`, threading the engine state. -/
def sendAll : E2EEncryption → String → List (Bytes × Bytes) →
    E2EEncryption × List (Except CryptoError SentMessage)
  | st, _, [] => (st, [])
  | st, cid, m :: rest =>
    let r := sendMessage st cid m.1 m.2
    let rs := sendAll r.1 cid rest
    (rs.1, r.2 :: rs.2)

/-- Receive a list of encrypted payloads in order through
    `receiveMessage`, threading the engine state. -/
def recvAll : E2EEncryption → String → List EncryptedData →
    E2EEncryption × List (Except CryptoError Bytes)
  | st, _, [] => (st, [])
  | st, cid, ed :: rest =>
    let r := receiveMessage st cid ed
    let rs := recvAll r.1 cid rest
    (rs.1, r.2 :: rs.2)

/-- The wire payloads of the successfully sent messages, in order. -/
def sentPayloads (l : List (Except CryptoError SentMessage)) : List EncryptedData :=
  l.filterMap (fun e =>
    match e with
    | Except.ok m => some m.toEncryptedData
    | Except.error _ => none)

/-- The root secret derived on the initiator side from the identity
    key `aIK`, the peer keys `bIK`/`bSPK` and the ephemeral pair
    `ephId`, when no one-time pre-key is used. -/
def initiatorRoot (aIK bIK bSPK ephId : Nat) : Bytes :=
  hkdf (dhBits aIK bSPK ++ dhBits ephId bIK ++ dhBits ephId bSPK)
    zeros32 "RootKey" 32

/-- The root secret derived on the responder side from its own keys
    `bIK`/`bSPK`, the initiator's identity key `aIK` and the received
    ephemeral key `eph`. -/
def responderRoot (bIK bSPK aIK eph : Nat) : Bytes :=
  hkdf (dhBits bSPK aIK ++ dhBits bIK eph ++ dhBits bSPK eph)
    zeros32 "RootKey" 32

/-- Engine state used as a concrete initiator instance. -/
def aliceEngine : E2EEncryption := ⟨some 0, some 1, [], []⟩

/-- Engine state used as a concrete responder instance (its key pair 9
    is the one-time pre-key offered in its bundle). -/
def bobEngine : E2EEncryption := ⟨some 2, some 3, [9], []⟩

/-! ## Helper lemmas about the session map -/

theorem mapGet_mapSet_self (m : List (String × Session)) (k : String) (v : Session) :
    mapGet (mapSet m k v) k = some v := by
  induction m with
  | nil => simp [mapGet, mapSet]
  | cons p rest ih =>
    by_cases h : p.1 = k
    · simp [mapGet, mapSet, h]
    · simp [mapGet, mapSet, h, ih]

theorem mapGet_mapSet_ne (m : List (String × Session)) (k k' : String) (v : Session)
    (h : k' ≠ k) : mapGet (mapSet m k v) k' = mapGet m k' := by
  induction m with
  | nil => simp [mapGet, mapSet, Ne.symm h]
  | cons p rest ih =>
    by_cases hp : p.1 = k
    · subst hp
      have hne : p.1 ≠ k' := Ne.symm h
      simp [mapGet, mapSet, hne]
    · simp only [mapSet, hp, if_false, mapGet]
      by_cases hq : p.1 = k'
      · simp [hq]
      · simp [hq, ih]

/-! ## Helper lemmas about the ideal AEAD model -/

theorem readLP_lp (x r : Bytes) : readLP (lp x ++ r) = some (x, r) := by
  have hx : lp x ++ r = x.length :: (x ++ r) := by simp [lp]
  rw [hx]
  simp [readLP, List.take_left, List.drop_left, Nat.le_add_right]

theorem readLP_lp_nil (x : Bytes) : readLP (lp x) = some (x, []) := by
  have h := readLP_lp x []
  simpa using h

theorem splitHalf_double (b : Bytes) : splitHalf (b ++ b) = some (b, b) := by
  unfold splitHalf
  rw [List.length_append]
  rw [if_pos (by omega)]
  have hdiv : (b.length + b.length) / 2 = b.length := by omega
  rw [hdiv, List.take_left, List.drop_left]

theorem readLP_body (key iv pt : Bytes) :
    readLP (lp key ++ lp iv ++ lp pt) = some (key, lp iv ++ lp pt) := by
  rw [List.append_assoc]
  exact readLP_lp ..

theorem decGCM_enc (key iv pt : Bytes) : decGCM (encGCM key iv pt) iv key = some pt := by
  unfold decGCM encGCM
  rw [splitHalf_double]
  dsimp only
  rw [if_pos rfl, readLP_body]
  dsimp only
  rw [readLP_lp]
  dsimp only
  rw [readLP_lp_nil]
  simp

theorem decGCM_enc_iv_ne (key iv iv' pt : Bytes) (h : iv' ≠ iv) :
    decGCM (encGCM key iv pt) iv' key = none := by
  unfold decGCM encGCM
  rw [splitHalf_double]
  dsimp only
  rw [if_pos rfl, readLP_body]
  dsimp only
  rw [readLP_lp]
  dsimp only
  rw [readLP_lp_nil]
  simp [Ne.symm h]

theorem decGCM_some_double (c iv key p : Bytes) (h : decGCM c iv key = some p) :
    ∃ hb : Bytes, c = hb ++ hb := by
  unfold decGCM at h
  rcases hs : splitHalf c with _ | ⟨h1, h2⟩
  · rw [hs] at h; simp at h
  · rw [hs] at h
    by_cases he : h1 = h2
    · refine ⟨h1, ?_⟩
      unfold splitHalf at hs
      by_cases hm : c.length % 2 = 0
      · rw [if_pos hm, Option.some.injEq, Prod.mk.injEq] at hs
        calc c = c.take (c.length / 2) ++ c.drop (c.length / 2) :=
              (List.take_append_drop _ c).symm
          _ = h1 ++ h2 := by rw [hs.1, hs.2]
          _ = h1 ++ h1 := by rw [he]
      · rw [if_neg hm] at hs; cases hs
    · simp [he] at h

/-- A ciphertext honestly produced by the ideal AEAD, with any single
    position changed to a different byte, is no longer of the
    authenticated (duplicated) shape. -/
theorem set_double_ne_double (b : Bytes) (i v : Nat) (hi : i < (b ++ b).length)
    (hv : v ≠ (b ++ b).get ⟨i, hi⟩) :
    ∀ hb : Bytes, (b ++ b).set i v ≠ hb ++ hb := by
  intro hb heq
  have hi2 : i < b.length + b.length := by simpa [List.length_append] using hi
  have hblen : 0 < b.length := by omega
  have hlen : hb.length = b.length := by
    have h1 : ((b ++ b).set i v).length = (b ++ b).length := List.length_set ..
    rw [heq] at h1
    simp only [List.length_append] at h1
    omega
  have hvi : (b ++ b)[i]? = some v → False := by
    intro hsome
    have hgi : (b ++ b)[i]? = some ((b ++ b).get ⟨i, hi⟩) := by
      rw [List.getElem?_eq_getElem hi, List.get_eq_getElem]
    rw [hgi] at hsome
    exact hv (Option.some.inj hsome).symm
  -- periodicity of the tampered list, from its double shape
  have hper : ∀ j, j < b.length →
      ((b ++ b).set i v)[j]? = ((b ++ b).set i v)[j + b.length]? := by
    intro j hj
    rw [heq]
    rw [List.getElem?_append_left (by omega), List.getElem?_append_right (by omega)]
    congr 1
    omega
  -- periodicity of the original double
  have hper0 : ∀ j, j < b.length → (b ++ b)[j]? = (b ++ b)[j + b.length]? := by
    intro j hj
    rw [List.getElem?_append_left (by omega),
      List.getElem?_append_right (by omega : b.length ≤ j + b.length)]
    congr 1
    omega
  rcases Nat.lt_or_ge i b.length with hcase | hcase
  · -- flip in the first half
    have h3 := hper i hcase
    rw [List.getElem?_set_self (by simp [List.length_append]; omega)] at h3
    rw [List.getElem?_set_ne (by omega : i ≠ i + b.length)] at h3
    rw [← hper0 i hcase] at h3
    exact hvi h3.symm
  · -- flip in the second half
    have hj : i - b.length < b.length := by omega
    have hsum : i - b.length + b.length = i := by omega
    have h3 := hper (i - b.length) hj
    rw [List.getElem?_set_ne (by omega : i ≠ i - b.length)] at h3
    rw [hsum, List.getElem?_set_self (by simp [List.length_append]; omega)] at h3
    have h4 := hper0 (i - b.length) hj
    rw [hsum] at h4
    exact hvi (h4.symm.trans h3)

/-- Any single-byte modification of an honestly produced ciphertext
    makes ideal AEAD decryption fail, under every key and IV. -/
theorem decryptMessage_enc (key iv pt : Bytes) :
    decryptMessage { ciphertext := encGCM key iv pt, iv := iv } key =
      Except.ok pt := by
  unfold decryptMessage
  dsimp only
  rw [decGCM_enc]

theorem decGCM_set_none (key iv pt : Bytes) (i v : Nat)
    (hi : i < (encGCM key iv pt).length)
    (hv : v ≠ (encGCM key iv pt).get ⟨i, hi⟩) (iv' key' : Bytes) :
    decGCM ((encGCM key iv pt).set i v) iv' key' = none := by
  rcases hd : decGCM ((encGCM key iv pt).set i v) iv' key' with _ | p
  · rfl
  · exfalso
    obtain ⟨hb, hhb⟩ := decGCM_some_double _ _ _ _ hd
    exact set_double_ne_double _ i v hi hv hb hhb

/-! ## Handshake evaluation lemmas -/

/-- Evaluating `createSession` without a one-time pre-key on a state
    whose identity key pair is `aIK`. -/
theorem createSession_none_eq (a : E2EEncryption) (aIK bIK bSPK ephId : Nat)
    (ca : String) (ha : a.identityKeyPair = some aIK) :
    createSession a ca bIK bSPK none ephId =
      some ({ identityKeyPair := a.identityKeyPair, signedPreKey := some ephId,
              oneTimePreKeys := a.oneTimePreKeys,
              sessions := mapSet a.sessions ca
                { rootKey := initiatorRoot aIK bIK bSPK ephId
                  sendingChainKey := initiatorRoot aIK bIK bSPK ephId
                  receivingChainKey := initiatorRoot aIK bIK bSPK ephId
                  messageNumber := 0
                  ephemeralPublicKey := some ephId } }, ephId) := by
  unfold createSession performKeyAgreement generateSignedPreKey initiatorRoot
  rw [ha]
  rfl

/-- Evaluating `createReceiveSession` on a state whose identity key
    pair is `bIK` and signed pre-key is `bSPK`. -/
theorem createReceiveSession_eq (b : E2EEncryption) (bIK bSPK aIK eph : Nat)
    (cb : String) (hbik : b.identityKeyPair = some bIK)
    (hbspk : b.signedPreKey = some bSPK) :
    createReceiveSession b cb aIK eph =
      some { identityKeyPair := b.identityKeyPair, signedPreKey := b.signedPreKey,
             oneTimePreKeys := b.oneTimePreKeys,
             sessions := mapSet b.sessions cb
               { rootKey := responderRoot bIK bSPK aIK eph
                 sendingChainKey := responderRoot bIK bSPK aIK eph
                 receivingChainKey := responderRoot bIK bSPK aIK eph
                 messageNumber := 0
                 ephemeralPublicKey := none } } := by
  unfold createReceiveSession responderRoot
  rw [hbspk, hbik]

/-- The two root derivations agree (Diffie-Hellman symmetry of each of
    the three terms). -/
theorem initiatorRoot_eq_responderRoot (aIK bIK bSPK ephId : Nat) :
    initiatorRoot aIK bIK bSPK ephId = responderRoot bIK bSPK aIK ephId := by
  unfold initiatorRoot responderRoot
  have hdh : dhBits aIK bSPK ++ dhBits ephId bIK ++ dhBits ephId bSPK =
      dhBits bSPK aIK ++ dhBits bIK ephId ++ dhBits bSPK ephId := by
    simp [dhBits, Nat.min_comm, Nat.max_comm]
  rw [hdh]

/-- Round trip for any two sessions whose chains agree: sequential
    sends on one side decrypt in order on the other. -/
theorem roundTrip_chain_aux (msgs : List (Bytes × Bytes)) :
    ∀ (a b : E2EEncryption) (ca cb : String) (sa sb : Session),
    mapGet a.sessions ca = some sa → mapGet b.sessions cb = some sb →
    sa.sendingChainKey = sb.receivingChainKey →
    (recvAll b cb (sentPayloads (sendAll a ca msgs).2)).2 =
      msgs.map (fun m => Except.ok m.1) := by
  induction msgs with
  | nil =>
    intro a b ca cb sa sb ha hb hchain
    simp [sendAll, recvAll, sentPayloads]
  | cons m rest ih =>
    intro a b ca cb sa sb ha hb hchain
    have hsend : sendMessage a ca m.1 m.2 =
        ({ a with
            sessions := mapSet a.sessions ca
              { sa with
                  sendingChainKey :=
                    (deriveMessageKeys sa.sendingChainKey).nextChainKey
                  messageNumber := sa.messageNumber + 1 } },
          Except.ok
            { ciphertext :=
                encGCM (deriveMessageKeys sa.sendingChainKey).messageKey m.2 m.1
              iv := m.2
              messageNumber := sa.messageNumber + 1 }) := by
      unfold sendMessage
      rw [ha]
      rfl
    have hrecv : receiveMessage b cb
        ({ ciphertext :=
            encGCM (deriveMessageKeys sa.sendingChainKey).messageKey m.2 m.1
           iv := m.2 } : EncryptedData) =
        ({ b with
            sessions := mapSet b.sessions cb
              { sb with
                  receivingChainKey :=
                    (deriveMessageKeys sb.receivingChainKey).nextChainKey } },
          Except.ok m.1) := by
      unfold receiveMessage
      rw [hb]
      dsimp only
      rw [← hchain, decryptMessage_enc]
    simp only [sendAll, hsend]
    simp only [sentPayloads, List.filterMap_cons]
    simp only [SentMessage.toEncryptedData]
    simp only [recvAll, hrecv]
    simp only [List.map_cons]
    congr 1
    · exact ih _ _ ca cb _ _ (mapGet_mapSet_self ..) (mapGet_mapSet_self ..)
        (by simp only [hchain])

/-! ## Claims -/

/-- C7: shared-secret derivation is commutative — for all identifier
    strings A and B, `deriveSharedKey A B = deriveSharedKey B A` (the
    same AES-256 key is derived regardless of argument order). -/
theorem c7_deriveSharedKey_commutative (a b : String) :
    deriveSharedKey a b = deriveSharedKey b a := by
  have hs : sortTwo a b = sortTwo b a := by
    unfold sortTwo
    rcases le_total a b with h | h
    · by_cases h2 : b ≤ a
      · have hab : a = b := le_antisymm h h2
        subst hab
        simp
      · simp [h, h2]
    · by_cases h2 : a ≤ b
      · have hab : a = b := le_antisymm h2 h
        subst hab
        simp
      · simp [h, h2]
  unfold deriveSharedKey
  rw [hs]

/-- Length of the concatenated two-digit hex renderings. -/
theorem flatten_hexByte_length (l : Bytes) :
    ((l.map hexByte).flatten).length = 2 * l.length := by
  induction l with
  | nil => rfl
  | cons b rest ih =>
    simp only [List.map_cons, List.flatten_cons, List.length_append, ih, hexByte,
      List.length_cons, List.length_nil, List.length_map]
    omega

theorem hexDigit_upper_ok (n : Nat) (h : n < 16) :
    isUpperHexDigit (upperChar (hexDigit n)) := by
  interval_cases n <;> decide

/-- C9: `generateFingerprint` is a deterministic function of the public
    key bytes, and its output is exactly 64 uppercase hexadecimal
    characters (the 32-byte SHA-256 digest rendered as hex,
    upper-cased). -/
theorem c9_fingerprint_shape (k : Bytes) :
    (generateFingerprint k).length = 64 ∧
    (∀ c ∈ generateFingerprint k, isUpperHexDigit c) ∧
    (∀ k' : Bytes, k = k' → generateFingerprint k = generateFingerprint k') := by
  refine ⟨?_, ?_, ?_⟩
  · unfold generateFingerprint
    rw [List.length_map, flatten_hexByte_length]
    have h32 : (sha256 k).length = 32 := by simp [sha256]
    rw [h32]
  · intro c hc
    unfold generateFingerprint at hc
    rw [List.mem_map] at hc
    obtain ⟨d, hd, hdc⟩ := hc
    rw [List.mem_flatten] at hd
    obtain ⟨s, hs, hds⟩ := hd
    rw [List.mem_map] at hs
    obtain ⟨byte, hbyte, hbs⟩ := hs
    have hlt : byte < 256 := by
      unfold sha256 at hbyte
      rw [List.mem_map] at hbyte
      obtain ⟨j, _, hj⟩ := hbyte
      omega
    subst hbs
    subst hdc
    have hcases : d = hexDigit (byte / 16) ∨ d = hexDigit (byte % 16) := by
      simpa [hexByte] using hds
    rcases hcases with h1 | h1
    · rw [h1]
      exact hexDigit_upper_ok _ (Nat.div_lt_of_lt_mul (by omega))
    · rw [h1]
      exact hexDigit_upper_ok _ (Nat.mod_lt _ (by omega))
  · intro k' h
    rw [h]

/-- Witness for C9 at a concrete key: the fingerprint of `[1, 2, 3]`
    has 64 characters and repeated computation gives the same value. -/
theorem c9_fingerprint_shape_witness :
    (generateFingerprint [1, 2, 3]).length = 64 ∧
    generateFingerprint [1, 2, 3] = generateFingerprint [1, 2, 3] :=
  ⟨(c9_fingerprint_shape [1, 2, 3]).1,
    (c9_fingerprint_shape [1, 2, 3]).2.2 [1, 2, 3] rfl⟩

/-- C3 counterexample: `exportIdentityBundle` does not remove exported
    one-time pre-keys.  For a KeyRing seeded with exactly one one-time
    pre-key, the export is a pure function of the engine state (the
    source reads `this.oneTimePreKeys.slice(0, 10)` and performs no
    mutation), so a second export returns the very same non-null key
    instead of none: the exported list is `[9]`, not `[]`. -/
theorem c3_counterexample_export_not_consuming :
    (exportIdentityBundle bobEngine).map (fun bundle => bundle.oneTimePreKeys) =
      Except.ok [9] ∧
    bobEngine.oneTimePreKeys = [9] ∧
    ¬ (exportIdentityBundle bobEngine).map (fun bundle => bundle.oneTimePreKeys) =
      Except.ok [] := by
  refine ⟨rfl, rfl, ?_⟩
  intro h
  simp [exportIdentityBundle, bobEngine, Except.map] at h

/-- C3 (amended): the client's `exportIdentityBundle` returns the first
    up-to-10 pooled one-time pre-keys and leaves the pool unchanged;
    only the directory server's key-fetch endpoint consumes keys — it
    pops exactly one per request and returns null on an empty pool, so
    a server pool seeded with exactly one key yields a non-null key and
    then none. -/
theorem c3_oneTimePreKey_consumption :
    (∀ st bundle, exportIdentityBundle st = Except.ok bundle →
      bundle.oneTimePreKeys = st.oneTimePreKeys.take 10) ∧
    (∀ k : Nat,
      serveOneTimePreKey [k] = (some k, []) ∧
      serveOneTimePreKey ([] : List Nat) = (none, [])) := by
  constructor
  · intro st bundle h
    unfold exportIdentityBundle at h
    rcases hik : st.identityKeyPair with _ | ik
    · rw [hik] at h; cases h
    · rcases hspk : st.signedPreKey with _ | spk
      · rw [hik, hspk] at h; cases h
      · rw [hik, hspk] at h
        cases h
        rfl
  · intro k
    exact ⟨rfl, rfl⟩

/-- Witness for C3 (amended) at concrete inputs. -/
theorem c3_oneTimePreKey_consumption_witness :
    ({ identityKey := 2, signedPreKey := 3, oneTimePreKeys := [9] } :
        PublicKeyBundle).oneTimePreKeys = bobEngine.oneTimePreKeys.take 10 ∧
    serveOneTimePreKey [9] = (some 9, []) :=
  ⟨c3_oneTimePreKey_consumption.1 bobEngine _ rfl,
    (c3_oneTimePreKey_consumption.2 9).1⟩

/-- C4: evaluating the code at a failing input.  `performKeyAgreement`
    mints its "ephemeral" key pair by calling `generateSignedPreKey()`,
    which stores the fresh pair in `this.signedPreKey`: after the call
    the engine's stored signed pre-key is the fresh ephemeral pair
    (id 4), no longer the original (id 1) — the identity key pair is
    unchanged.  This contradicts the documented lifecycle ("keys are
    created once at registration and persist") and the code's own
    intent (the comment labels the pair `EK_A`, an ephemeral key). -/
theorem c4_signedPreKey_overwritten :
    ∃ st' r, performKeyAgreement aliceEngine 2 3 none 4 = some (st', r) ∧
      aliceEngine.signedPreKey = some 1 ∧
      st'.signedPreKey = some 4 ∧
      r.ephemeralPublicKey = 4 ∧
      st'.signedPreKey ≠ aliceEngine.signedPreKey ∧
      st'.identityKeyPair = aliceEngine.identityKeyPair := by
  refine ⟨_, _, rfl, rfl, rfl, rfl, by decide, rfl⟩

/-- C5: for both handshake roles — `createSession` on the initiator and
    `createReceiveSession` on the responder — the stored session has
    `sendingChainKey` and `receivingChainKey` both equal to the freshly
    derived root secret, and its message counter equal to zero. -/
theorem c5_session_seeding (st : E2EEncryption) (cid : String)
    (theirIdentityKey theirSignedPreKey : Nat) (theirOneTimePreKey : Option Nat)
    (ephId : Nat) (senderIdentityKey sendingEphemeralKey : Nat) :
    (∀ st' eph, createSession st cid theirIdentityKey theirSignedPreKey
        theirOneTimePreKey ephId = some (st', eph) →
      ∃ s, mapGet st'.sessions cid = some s ∧
        s.sendingChainKey = s.rootKey ∧ s.receivingChainKey = s.rootKey ∧
        s.messageNumber = 0) ∧
    (∀ st', createReceiveSession st cid senderIdentityKey sendingEphemeralKey =
        some st' →
      ∃ s, mapGet st'.sessions cid = some s ∧
        s.sendingChainKey = s.rootKey ∧ s.receivingChainKey = s.rootKey ∧
        s.messageNumber = 0) := by
  constructor
  · intro st' eph h
    unfold createSession at h
    rcases hpk : performKeyAgreement st theirIdentityKey theirSignedPreKey
        theirOneTimePreKey ephId with _ | r
    · rw [hpk] at h; cases h
    · rw [hpk] at h
      simp only [Option.map_some'] at h
      cases h
      refine ⟨_, mapGet_mapSet_self .., rfl, rfl, rfl⟩
  · intro st' h
    unfold createReceiveSession at h
    rcases hspk : st.signedPreKey with _ | spk
    · rw [hspk] at h; cases h
    · rcases hik : st.identityKeyPair with _ | ik
      · rw [hspk, hik] at h; cases h
      · rw [hspk, hik] at h
        simp only at h
        cases h
        refine ⟨_, mapGet_mapSet_self .., rfl, rfl, rfl⟩

/-- Witness for C5: both handshake roles at concrete inputs. -/
theorem c5_session_seeding_witness :
    (∃ s, mapGet ((createSession aliceEngine "bob" 2 3 none 5).map Prod.fst).iget.sessions
        "bob" = some s ∧
      s.sendingChainKey = s.rootKey ∧ s.receivingChainKey = s.rootKey ∧
      s.messageNumber = 0) ∧
    (∃ s, mapGet ((createReceiveSession bobEngine "alice" 0 5).iget).sessions
        "alice" = some s ∧
      s.sendingChainKey = s.rootKey ∧ s.receivingChainKey = s.rootKey ∧
      s.messageNumber = 0) := by
  constructor
  · exact (c5_session_seeding aliceEngine "bob" 2 3 none 5 0 5).1 _ _ rfl
  · exact (c5_session_seeding bobEngine "alice" 2 3 none 5 0 5).2 _ rfl

/-- C8: `sendMessage` and `receiveMessage`, called for a contact with
    no established session, fail with the no-session error and leave
    the engine state unchanged; when a session exists they never raise
    this error. -/
theorem c8_noSession_error (st : E2EEncryption) (cid : String) (pt iv : Bytes)
    (ed : EncryptedData) :
    (mapGet st.sessions cid = none →
      sendMessage st cid pt iv = (st, Except.error CryptoError.noSession) ∧
      receiveMessage st cid ed = (st, Except.error CryptoError.noSession)) ∧
    (mapGet st.sessions cid ≠ none →
      (sendMessage st cid pt iv).2 ≠ Except.error CryptoError.noSession ∧
      (receiveMessage st cid ed).2 ≠ Except.error CryptoError.noSession) := by
  constructor
  · intro h
    constructor
    · unfold sendMessage
      rw [h]
    · unfold receiveMessage
      rw [h]
  · intro h
    rcases hs : mapGet st.sessions cid with _ | s
    · exact absurd hs h
    · constructor
      · unfold sendMessage
        rw [hs]
        simp
      · unfold receiveMessage
        rw [hs]
        simp only
        unfold decryptMessage
        rcases decGCM ed.ciphertext ed.iv
            (deriveMessageKeys s.receivingChainKey).messageKey with _ | p
        · simp
        · simp

/-- Witness for C8: a state with a session for "bob" and none for
    "carol". -/
theorem c8_noSession_error_witness :
    (sendMessage bobEngine "carol" [1] [2] =
      (bobEngine, Except.error CryptoError.noSession)) ∧
    ((sendMessage
        { bobEngine with
          sessions := [("bob", ⟨[9], [9], [9], 0, none⟩)] } "bob" [1] [2]).2 ≠
      Except.error CryptoError.noSession) :=
  ⟨((c8_noSession_error bobEngine "carol" [1] [2] ⟨[3], [4]⟩).1 rfl).1,
    ((c8_noSession_error
      { bobEngine with sessions := [("bob", ⟨[9], [9], [9], 0, none⟩)] }
      "bob" [1] [2] ⟨[3], [4]⟩).2 (by decide)).1⟩

/-- C10: for an established session, `receiveMessage` replaces only the
    session's `receivingChainKey` with the next chain key — derived
    before decryption is attempted, so the state update is the same
    whether decryption succeeds or fails — while `rootKey`,
    `sendingChainKey` and `messageNumber`, and every other contact's
    session, are unchanged; no receive counter exists or is
    incremented. -/
theorem c10_receive_frame (st : E2EEncryption) (cid : String) (ed : EncryptedData)
    (s : Session) (h : mapGet st.sessions cid = some s) :
    receiveMessage st cid ed =
      ({ st with
          sessions := mapSet st.sessions cid
            { s with
                receivingChainKey :=
                  (deriveMessageKeys s.receivingChainKey).nextChainKey } },
        decryptMessage ed (deriveMessageKeys s.receivingChainKey).messageKey) ∧
    (∀ cid', cid' ≠ cid →
      mapGet (receiveMessage st cid ed).1.sessions cid' = mapGet st.sessions cid') ∧
    (∃ s', mapGet (receiveMessage st cid ed).1.sessions cid = some s' ∧
      s'.rootKey = s.rootKey ∧ s'.sendingChainKey = s.sendingChainKey ∧
      s'.messageNumber = s.messageNumber ∧
      s'.receivingChainKey = (deriveMessageKeys s.receivingChainKey).nextChainKey) := by
  have hr : receiveMessage st cid ed =
      ({ st with
          sessions := mapSet st.sessions cid
            { s with
                receivingChainKey :=
                  (deriveMessageKeys s.receivingChainKey).nextChainKey } },
        decryptMessage ed (deriveMessageKeys s.receivingChainKey).messageKey) := by
    unfold receiveMessage
    rw [h]
  refine ⟨hr, ?_, ?_⟩
  · intro cid' hcid
    rw [hr]
    exact mapGet_mapSet_ne _ _ _ _ hcid
  · rw [hr]
    refine ⟨_, mapGet_mapSet_self .., rfl, rfl, rfl, rfl⟩

/-- Witness for C10 at a concrete session and a payload whose
    decryption fails: the chain still advances and nothing else
    changes. -/
theorem c10_receive_frame_witness :
    receiveMessage
        { bobEngine with sessions := [("alice", ⟨[9], [9], [9], 0, none⟩)] }
        "alice" ⟨[3], [4]⟩ =
      ({ bobEngine with
          sessions := [("alice",
            ⟨[9], [9], (deriveMessageKeys [9]).nextChainKey, 0, none⟩)] },
        Except.error CryptoError.authenticationError) ∧
    mapGet (receiveMessage
        { bobEngine with sessions := [("alice", ⟨[9], [9], [9], 0, none⟩)] }
        "alice" ⟨[3], [4]⟩).1.sessions "carol" = none := by
  have h := c10_receive_frame
    { bobEngine with sessions := [("alice", ⟨[9], [9], [9], 0, none⟩)] }
    "alice" ⟨[3], [4]⟩ ⟨[9], [9], [9], 0, none⟩ rfl
  constructor
  · rw [h.1]
    constructor
  · exact (h.2.1 "carol" (by decide)).trans rfl

/-- C6: for every message key and honestly produced encrypted message,
    `decryptMessage` fails with the authentication error whenever the
    AEAD tag does not verify; in particular changing any single byte of
    the ciphertext (under every key and IV) or of the IV causes the
    error, never a wrong-but-successful plaintext, and no plaintext is
    returned on failure. -/
theorem c6_tamper_detection (key iv pt : Bytes) :
    (∀ i (hi : i < (encryptMessage pt key iv).ciphertext.length) v,
      v ≠ (encryptMessage pt key iv).ciphertext.get ⟨i, hi⟩ →
      decryptMessage
        { ciphertext := (encryptMessage pt key iv).ciphertext.set i v,
          iv := (encryptMessage pt key iv).iv } key =
        Except.error CryptoError.authenticationError) ∧
    (∀ j (hj : j < iv.length) w, w ≠ iv.get ⟨j, hj⟩ →
      decryptMessage
        { ciphertext := (encryptMessage pt key iv).ciphertext, iv := iv.set j w }
        key = Except.error CryptoError.authenticationError) ∧
    (∀ ed : EncryptedData, decGCM ed.ciphertext ed.iv key = none →
      decryptMessage ed key = Except.error CryptoError.authenticationError) := by
  refine ⟨?_, ?_, ?_⟩
  · intro i hi v hv
    have hnone := decGCM_set_none key iv pt i v hi hv iv key
    unfold decryptMessage
    simp only [encryptMessage] at hnone ⊢
    rw [hnone]
  · intro j hj w hw
    have hne : iv.set j w ≠ iv := by
      intro hEq
      have h1 : (iv.set j w)[j]? = some w := List.getElem?_set_self hj
      rw [hEq, List.getElem?_eq_getElem hj] at h1
      exact hw (Option.some.inj h1).symm
    have hnone := decGCM_enc_iv_ne key iv (iv.set j w) pt hne
    unfold decryptMessage
    simp only [encryptMessage] at hnone ⊢
    rw [hnone]
  · intro ed h
    unfold decryptMessage
    rw [h]

/-- Witness for C6: flipping the first ciphertext byte, and the first
    IV byte, of a concrete honestly-encrypted message both fail with
    the authentication error. -/
theorem c6_tamper_detection_witness :
    decryptMessage
        { ciphertext := (encryptMessage [5] [7] [1, 2]).ciphertext.set 0 99,
          iv := (encryptMessage [5] [7] [1, 2]).iv } [7] =
      Except.error CryptoError.authenticationError ∧
    decryptMessage
        { ciphertext := (encryptMessage [5] [7] [1, 2]).ciphertext,
          iv := ([1, 2] : Bytes).set 0 99 } [7] =
      Except.error CryptoError.authenticationError :=
  ⟨(c6_tamper_detection [7] [1, 2] [5]).1 0 (by decide) 99 (by decide),
    (c6_tamper_detection [7] [1, 2] [5]).2.1 0 (by decide) 99 (by decide)⟩

/-- C1 (amended): the two handshake paths converge to the same root
    secret whenever the initiator uses **no** one-time pre-key: for all
    engine states and key-pair ids, `createSession` on the initiator
    (run against the responder's identity key and signed pre-key) and
    `createReceiveSession` on the responder (run with the initiator's
    identity key and the ephemeral key returned by the initiator's
    handshake) store sessions with equal `rootKey`. -/
theorem c1_root_convergence_no_otpk (a b : E2EEncryption)
    (aIK bIK bSPK ephId : Nat) (ca cb : String)
    (ha : a.identityKeyPair = some aIK)
    (hbik : b.identityKeyPair = some bIK) (hbspk : b.signedPreKey = some bSPK) :
    ∃ a' eph b' sa sb,
      createSession a ca bIK bSPK none ephId = some (a', eph) ∧
      createReceiveSession b cb aIK eph = some b' ∧
      mapGet a'.sessions ca = some sa ∧
      mapGet b'.sessions cb = some sb ∧
      sa.rootKey = sb.rootKey := by
  refine ⟨_, ephId, _, _, _, createSession_none_eq a aIK bIK bSPK ephId ca ha,
    createReceiveSession_eq b bIK bSPK aIK ephId cb hbik hbspk,
    mapGet_mapSet_self .., mapGet_mapSet_self .., ?_⟩
  exact initiatorRoot_eq_responderRoot aIK bIK bSPK ephId

/-- Witness for C1 (amended) at concrete engines. -/
theorem c1_root_convergence_no_otpk_witness :
    ∃ a' eph b' sa sb,
      createSession aliceEngine "bob" 2 3 none 5 = some (a', eph) ∧
      createReceiveSession bobEngine "alice" 0 eph = some b' ∧
      mapGet a'.sessions "bob" = some sa ∧
      mapGet b'.sessions "alice" = some sb ∧
      sa.rootKey = sb.rootKey :=
  c1_root_convergence_no_otpk aliceEngine bobEngine 0 2 3 5 "bob" "alice" rfl rfl rfl

/-- C1 counterexample: when the initiator uses one of the responder's
    one-time pre-keys (key pair 9), the initiator's stored root secret
    and the responder's differ — the responder never computes the
    fourth DH term, so the two sides do not converge. -/
theorem c1_counterexample_otpk_divergence :
    ((createSession aliceEngine "bob" 2 3 (some 9) 5).bind (fun r =>
      (createReceiveSession bobEngine "alice" 0 5).bind (fun b' =>
        (mapGet r.1.sessions "bob").bind (fun sa =>
          (mapGet b'.sessions "alice").map (fun sb =>
            decide (sa.rootKey = sb.rootKey)))))) = some false := by decide

/-- C2 (amended): for a pair of sessions freshly handshaken **without**
    a one-time pre-key — A via `createSession` on B's identity key and
    signed pre-key, B via `createReceiveSession` from A's identity key
    and the returned ephemeral key — every sequence of messages sent
    A→B through `sendMessage` and received in order through
    `receiveMessage`, with no interleaving from B, decrypts to the
    original plaintexts. -/
theorem c2_round_trip_handshaken (a b : E2EEncryption)
    (aIK bIK bSPK ephId : Nat) (ca cb : String)
    (ha : a.identityKeyPair = some aIK)
    (hbik : b.identityKeyPair = some bIK) (hbspk : b.signedPreKey = some bSPK) :
    ∃ a' eph b',
      createSession a ca bIK bSPK none ephId = some (a', eph) ∧
      createReceiveSession b cb aIK eph = some b' ∧
      ∀ msgs : List (Bytes × Bytes),
        (recvAll b' cb (sentPayloads (sendAll a' ca msgs).2)).2 =
          msgs.map (fun m => Except.ok m.1) := by
  refine ⟨_, ephId, _, createSession_none_eq a aIK bIK bSPK ephId ca ha,
    createReceiveSession_eq b bIK bSPK aIK ephId cb hbik hbspk, ?_⟩
  intro msgs
  exact roundTrip_chain_aux msgs _ _ ca cb _ _
    (mapGet_mapSet_self ..) (mapGet_mapSet_self ..)
    (initiatorRoot_eq_responderRoot aIK bIK bSPK ephId)

/-- Witness for C2 (amended) at concrete engines. -/
theorem c2_round_trip_handshaken_witness :
    ∃ a' eph b',
      createSession aliceEngine "bob" 2 3 none 5 = some (a', eph) ∧
      createReceiveSession bobEngine "alice" 0 eph = some b' ∧
      ∀ msgs : List (Bytes × Bytes),
        (recvAll b' "alice" (sentPayloads (sendAll a' "bob" msgs).2)).2 =
          msgs.map (fun m => Except.ok m.1) :=
  c2_round_trip_handshaken aliceEngine bobEngine 0 2 3 5 "bob" "alice" rfl rfl rfl

set_option maxRecDepth 4000 in
/-- C2 counterexample: for a pair freshly handshaken **with** a
    one-time pre-key from the responder's bundle, the very first
    message fails to decrypt (the two root secrets differ), so
    `decryptB(encryptA(m))` is an authentication error, not `m`. -/
theorem c2_counterexample_otpk_round_trip_fails :
    ((createSession aliceEngine "bob" 2 3 (some 9) 5).bind (fun r =>
      (createReceiveSession bobEngine "alice" 0 5).map (fun b' =>
        (recvAll b' "alice"
          (sentPayloads (sendAll r.1 "bob" [([104, 105], [1, 2, 3])]).2)).2))) =
      some [Except.error CryptoError.authenticationError] ∧
    some [Except.error CryptoError.authenticationError] ≠
      some [Except.ok ([104, 105] : Bytes)] := by
  constructor
  · decide
  · decide

end WhatsDown
